import Mathlib

/-!
Shallow embedding of the audio-capture core of `src/audio/audio_wrapper.h`:
the fixed-capacity ring buffer (`ring_buffer_t`, `ring_buffer_write`,
`ring_buffer_read`) and the device lifecycle operations
(`audio_start_recording`, `audio_stop`, `audio_read_samples`,
`audio_error_message`).

Modelling conventions:
- `int16_t` samples are modelled as `Int`; the code only stores and copies
  samples, never performs arithmetic on them, so no 16-bit wraparound arises.
- `unsigned int` counters are modelled as `Nat`.  The one place where 32-bit
  overflow is reachable (`maxFrames * channels` in `audio_read_samples`) is
  modelled with an explicit `% 2 ^ 32`.
- The C macro `RING_BUFFER_SIZE` fixes the capacity at compile time; the Lean
  functions take the capacity `C` as an explicit parameter and the constant
  `RING_BUFFER_SIZE` instantiates it to the source value.
- The native RtAudio backend is external to the repository.  Its observable
  behaviour during `audio_start_recording` (whether open fails, whether start
  fails, the adjusted frame count) is passed in as a `backend_behavior`
  value, and the open/running flags of the native stream are carried as two
  boolean fields of `audio_device`.
-/

namespace Roundtable

/-- Error code `AUDIO_OK` from `audio_wrapper.h`. -/
def AUDIO_OK : Int := 0

/-- Error code `AUDIO_ERROR` from `audio_wrapper.h`. -/
def AUDIO_ERROR : Int := -1

/-- Error code `AUDIO_NO_DEVICES` from `audio_wrapper.h`. -/
def AUDIO_NO_DEVICES : Int := -2

/-- Error code `AUDIO_INVALID_PARAM` from `audio_wrapper.h`. -/
def AUDIO_INVALID_PARAM : Int := -3

/-- The capacity constant `RING_BUFFER_SIZE` (48000 * 10). -/
def RING_BUFFER_SIZE : Nat := 48000 * 10

/-- Modulus of the C `unsigned int` type. -/
def UINT_MOD : Nat := 2 ^ 32

/-- The `ring_buffer_t` struct: `data` is the sample array (length = the
capacity), `writePos` and `readPos` the cursors, `available` the count of
unread samples. -/
structure ring_buffer_t where
  data : List Int
  writePos : Nat
  readPos : Nat
  available : Nat
deriving Repr, DecidableEq

/-- `ring_buffer_init`: zeroes both cursors and the unread count.  The C code
does not clear the sample array, so `data` is whatever storage held before. -/
def ring_buffer_init (data : List Int) : ring_buffer_t :=
  { data := data, writePos := 0, readPos := 0, available := 0 }

/-- `ring_buffer_write`: the C loop
`while (written < samples && rb->available < RING_BUFFER_SIZE)` copies one
sample per iteration to `data[writePos]`, advances `writePos` modulo the
capacity and increments `available`.  The input array together with its
`samples` count is modelled as the list `input`; the result is the updated
buffer and the returned `written` count. -/
def ring_buffer_write (C : Nat) (rb : ring_buffer_t) :
    List Int → ring_buffer_t × Nat
  | [] => (rb, 0)
  | x :: xs =>
    if rb.available < C then
      let rb' : ring_buffer_t :=
        { rb with
          data := rb.data.set rb.writePos x
          writePos := (rb.writePos + 1) % C
          available := rb.available + 1 }
      let r := ring_buffer_write C rb' xs
      (r.1, r.2 + 1)
    else
      (rb, 0)

/-- `ring_buffer_read`: the C loop
`while (read < samples && rb->available > 0)` copies one sample per iteration
from `data[readPos]`, advances `readPos` modulo the capacity and decrements
`available`.  The output array is modelled as the returned list (whose length
is the returned `read` count). -/
def ring_buffer_read (C : Nat) (rb : ring_buffer_t) :
    Nat → ring_buffer_t × List Int
  | 0 => (rb, [])
  | n + 1 =>
    if 0 < rb.available then
      let x := rb.data.getD rb.readPos 0
      let rb' : ring_buffer_t :=
        { rb with
          readPos := (rb.readPos + 1) % C
          available := rb.available - 1 }
      let r := ring_buffer_read C rb' n
      (r.1, x :: r.2)
    else
      (rb, [])

/-! ### Basic lemmas about `ring_buffer_write` -/

theorem write_readPos (C : Nat) (rb : ring_buffer_t) (input : List Int) :
    (ring_buffer_write C rb input).1.readPos = rb.readPos := by
  induction input generalizing rb with
  | nil => rfl
  | cons x xs ih =>
    simp only [ring_buffer_write]
    split
    · simpa using ih _
    · rfl

theorem write_data_length (C : Nat) (rb : ring_buffer_t) (input : List Int) :
    (ring_buffer_write C rb input).1.data.length = rb.data.length := by
  induction input generalizing rb with
  | nil => rfl
  | cons x xs ih =>
    simp only [ring_buffer_write]
    split
    · simp only [ih]
      simp
    · rfl

theorem write_available (C : Nat) (rb : ring_buffer_t) (input : List Int) :
    (ring_buffer_write C rb input).1.available
      = rb.available + (ring_buffer_write C rb input).2 := by
  induction input generalizing rb with
  | nil => rfl
  | cons x xs ih =>
    simp only [ring_buffer_write]
    split
    · simp only []
      rw [ih]
      simp
      omega
    · rfl

theorem write_count (C : Nat) (rb : ring_buffer_t) (input : List Int)
    (ha : rb.available ≤ C) :
    (ring_buffer_write C rb input).2 = min input.length (C - rb.available) := by
  induction input generalizing rb with
  | nil => simp [ring_buffer_write]
  | cons x xs ih =>
    simp only [ring_buffer_write]
    split
    · rename_i hlt
      have := ih
        { rb with
          data := rb.data.set rb.writePos x
          writePos := (rb.writePos + 1) % C
          available := rb.available + 1 } (by simpa using hlt)
      simp only at this
      simp only [this, List.length_cons]
      omega
    · rename_i hge
      have hc : rb.available = C := by omega
      simp [hc]

theorem write_writePos_lt (C : Nat) (rb : ring_buffer_t) (input : List Int)
    (hC : 0 < C) (hw : rb.writePos < C) :
    (ring_buffer_write C rb input).1.writePos < C := by
  induction input generalizing rb with
  | nil => exact hw
  | cons x xs ih =>
    simp only [ring_buffer_write]
    split
    · simpa using ih _ (Nat.mod_lt _ hC)
    · exact hw

/-! ### Modular index helpers -/

theorem add_mod_ne_self (C w k : Nat) (hw : w < C) (hk0 : 0 < k) (hkC : k < C) :
    (w + k) % C ≠ w := by
  intro h
  have h1 : (w + k) % C = (w + 0) % C := by
    simpa [Nat.mod_eq_of_lt hw] using h
  have h2 : k ≡ 0 [MOD C] := Nat.ModEq.add_left_cancel' w h1
  have h3 : k % C = 0 % C := h2
  rw [Nat.mod_eq_of_lt hkC, Nat.zero_mod] at h3
  omega

theorem mod_cycle1 (C w j : Nat) (hw : w < C) (hj : j < C) :
    (w + (j + C - w) % C) % C = j := by
  rw [Nat.add_mod_mod]
  have h1 : w + (j + C - w) = j + C := by omega
  rw [h1, Nat.add_mod_right, Nat.mod_eq_of_lt hj]

theorem mod_shift (C w i : Nat) : ((w + 1) % C + i) % C = (w + (i + 1)) % C := by
  rw [Nat.mod_add_mod]
  congr 1
  omega

theorem mod_cycle2 (C w i : Nat) (hw : w < C) (hi : i < C) :
    ((w + i) % C + C - w) % C = i := by
  have h0 : (w + i) % C + C - w = (w + i) % C + (C - w) := by omega
  rw [h0, Nat.mod_add_mod]
  have h2 : w + i + (C - w) = i + C := by omega
  rw [h2, Nat.add_mod_right, Nat.mod_eq_of_lt hi]

/-! ### List getD helpers -/

theorem set_getD_ne : ∀ (l : List Int) (i j : Nat) (a : Int), i ≠ j →
    (l.set i a).getD j 0 = l.getD j 0
  | [], _, _, _, _ => rfl
  | x :: xs, 0, 0, a, h => absurd rfl h
  | x :: xs, 0, j + 1, a, _ => by simp [List.set]
  | x :: xs, i + 1, 0, a, _ => by simp [List.set]
  | x :: xs, i + 1, j + 1, a, h => by
    simp only [List.set, List.getD_cons_succ]
    exact set_getD_ne xs i j a (by omega)

theorem set_getD_eq : ∀ (l : List Int) (j : Nat) (a : Int), j < l.length →
    (l.set j a).getD j 0 = a
  | [], _, _, h => by simp at h
  | x :: xs, 0, a, _ => rfl
  | x :: xs, j + 1, a, h => by
    simp only [List.set, List.getD_cons_succ]
    exact set_getD_eq xs j a (by simpa using h)

theorem list_getD_ext : ∀ (l₁ l₂ : List Int), l₁.length = l₂.length →
    (∀ i, i < l₁.length → l₁.getD i 0 = l₂.getD i 0) → l₁ = l₂
  | [], [], _, _ => rfl
  | [], _ :: _, h, _ => by simp at h
  | _ :: _, [], h, _ => by simp at h
  | x :: xs, y :: ys, h, hget => by
    have h0 : x = y := hget 0 (by simp)
    have ht : xs = ys :=
      list_getD_ext xs ys (by simpa using h)
        (fun i hi => by simpa using hget (i + 1) (by simpa using hi))
    rw [h0, ht]

/-! ### Data placement lemmas for `ring_buffer_write` -/

theorem write_data_old (C : Nat) (rb : ring_buffer_t) (input : List Int)
    (hd : rb.data.length = C) (hw : rb.writePos < C) :
    ∀ j, (∀ i, i < (ring_buffer_write C rb input).2 → j ≠ (rb.writePos + i) % C) →
      (ring_buffer_write C rb input).1.data.getD j 0 = rb.data.getD j 0 := by
  induction input generalizing rb with
  | nil => intro j _; rfl
  | cons x xs ih =>
    intro j hj
    rw [ring_buffer_write] at hj ⊢
    by_cases hlt : rb.available < C
    · simp only [if_pos hlt] at hj ⊢
      have hstep := ih
        { rb with
          data := rb.data.set rb.writePos x
          writePos := (rb.writePos + 1) % C
          available := rb.available + 1 }
        (by simpa using hd) (Nat.mod_lt _ (by omega)) j
        (by
          intro i hi
          simp only []
          rw [mod_shift]
          exact hj (i + 1) (by simpa using Nat.succ_lt_succ hi))
      simp only at hstep
      rw [hstep]
      have hj0 : j ≠ rb.writePos := by
        have := hj 0 (by simp)
        simpa [Nat.mod_eq_of_lt hw] using this
      exact set_getD_ne _ _ _ _ (fun h => hj0 h.symm)
    · simp [if_neg hlt]

theorem write_data_new (C : Nat) (rb : ring_buffer_t) (input : List Int)
    (hd : rb.data.length = C) (hw : rb.writePos < C) :
    ∀ i, i < (ring_buffer_write C rb input).2 →
      (ring_buffer_write C rb input).1.data.getD ((rb.writePos + i) % C) 0
        = input.getD i 0 := by
  induction input generalizing rb with
  | nil => intro i hi; simp [ring_buffer_write] at hi
  | cons x xs ih =>
    intro i hi
    rw [ring_buffer_write] at hi ⊢
    by_cases hlt : rb.available < C
    · simp only [if_pos hlt] at hi ⊢
      have hd' : (rb.data.set rb.writePos x).length = C := by simpa using hd
      have hw' : (rb.writePos + 1) % C < C := Nat.mod_lt _ (by omega)
      have hcount : (ring_buffer_write C
          { rb with
            data := rb.data.set rb.writePos x
            writePos := (rb.writePos + 1) % C
            available := rb.available + 1 } xs).2 ≤ C - (rb.available + 1) := by
        rw [write_count C _ xs (by simp only []; omega)]
        simp only []
        omega
      match i with
      | 0 =>
        simp only [Nat.add_zero, Nat.mod_eq_of_lt hw, List.getD_cons_zero]
        have huntouched := write_data_old C
          { rb with
            data := rb.data.set rb.writePos x
            writePos := (rb.writePos + 1) % C
            available := rb.available + 1 } xs hd' hw' rb.writePos
          (by
            intro i' hi'
            simp only [] at hi' ⊢
            rw [mod_shift]
            have h2 : i' + 1 < C := by omega
            have hne := add_mod_ne_self C rb.writePos (i' + 1) hw (by omega) h2
            exact fun h => hne h.symm)
        simp only at huntouched
        rw [huntouched]
        exact set_getD_eq rb.data rb.writePos x (by omega)
      | i' + 1 =>
        have hrec := ih
          { rb with
            data := rb.data.set rb.writePos x
            writePos := (rb.writePos + 1) % C
            available := rb.available + 1 } hd' hw' i' (by omega)
        simp only [List.getD_cons_succ]
        simp only [] at hrec
        rw [mod_shift] at hrec
        exact hrec
    · simp [if_neg hlt] at hi

/-! ### Basic lemmas about `ring_buffer_read` -/

theorem read_writePos (C : Nat) (rb : ring_buffer_t) (n : Nat) :
    (ring_buffer_read C rb n).1.writePos = rb.writePos := by
  induction n generalizing rb with
  | zero => rfl
  | succ n ih =>
    simp only [ring_buffer_read]
    split
    · simpa using ih _
    · rfl

theorem read_data (C : Nat) (rb : ring_buffer_t) (n : Nat) :
    (ring_buffer_read C rb n).1.data = rb.data := by
  induction n generalizing rb with
  | zero => rfl
  | succ n ih =>
    simp only [ring_buffer_read]
    split
    · simpa using ih _
    · rfl

theorem read_count (C : Nat) (rb : ring_buffer_t) (n : Nat) :
    (ring_buffer_read C rb n).2.length = min n rb.available := by
  induction n generalizing rb with
  | zero => simp [ring_buffer_read]
  | succ n ih =>
    simp only [ring_buffer_read]
    split
    · rename_i hpos
      have := ih
        { rb with
          readPos := (rb.readPos + 1) % C
          available := rb.available - 1 }
      simp only at this
      simp only [List.length_cons, this]
      omega
    · rename_i hz
      have : rb.available = 0 := by omega
      simp [this]

theorem read_available (C : Nat) (rb : ring_buffer_t) (n : Nat) :
    (ring_buffer_read C rb n).1.available
      = rb.available - (ring_buffer_read C rb n).2.length := by
  induction n generalizing rb with
  | zero => rfl
  | succ n ih =>
    simp only [ring_buffer_read]
    split
    · rename_i hpos
      have := ih
        { rb with
          readPos := (rb.readPos + 1) % C
          available := rb.available - 1 }
      simp only at this
      simp only [List.length_cons, this]
      omega
    · simp

theorem read_readPos_lt (C : Nat) (rb : ring_buffer_t) (n : Nat)
    (hC : 0 < C) (hr : rb.readPos < C) :
    (ring_buffer_read C rb n).1.readPos < C := by
  induction n generalizing rb with
  | zero => exact hr
  | succ n ih =>
    simp only [ring_buffer_read]
    split
    · simpa using ih _ (Nat.mod_lt _ hC)
    · exact hr

theorem read_out (C : Nat) (rb : ring_buffer_t) (n : Nat) (hr : rb.readPos < C) :
    ∀ i, i < (ring_buffer_read C rb n).2.length →
      (ring_buffer_read C rb n).2.getD i 0
        = rb.data.getD ((rb.readPos + i) % C) 0 := by
  induction n generalizing rb with
  | zero => intro i hi; simp [ring_buffer_read] at hi
  | succ n ih =>
    intro i hi
    rw [ring_buffer_read] at hi ⊢
    by_cases hpos : 0 < rb.available
    · simp only [if_pos hpos] at hi ⊢
      match i with
      | 0 =>
        simp [Nat.mod_eq_of_lt hr]
      | i' + 1 =>
        have hrec := ih
          { rb with
            readPos := (rb.readPos + 1) % C
            available := rb.available - 1 }
          (Nat.mod_lt _ (by omega)) i' (by simpa using Nat.lt_of_succ_lt_succ hi)
        simp only [List.getD_cons_succ]
        simp only [] at hrec
        rw [mod_shift] at hrec
        exact hrec
    · simp [if_neg hpos] at hi

/-- Value of the data array after a write, expressed as an overlay: position
`j` holds the `k`-th input sample when `k = (j + C - writePos) % C` is below
the written count (the window `writePos, writePos+1, ...` taken modulo `C`),
and the old sample otherwise. -/
def write_overlay (C : Nat) (rb : ring_buffer_t) (input : List Int)
    (cnt : Nat) : List Int :=
  (List.range C).map (fun j =>
    if (j + C - rb.writePos) % C < cnt then
      input.getD ((j + C - rb.writePos) % C) 0
    else
      rb.data.getD j 0)

theorem getD_map_range (C : Nat) (f : Nat → Int) (i : Nat) (hi : i < C) :
    ((List.range C).map f).getD i 0 = f i := by
  rw [List.getD_eq_getElem?_getD, List.getElem?_map, List.getElem?_range hi]
  rfl

theorem write_data_overlay (C : Nat) (rb : ring_buffer_t) (input : List Int)
    (hd : rb.data.length = C) (hw : rb.writePos < C) (ha : rb.available ≤ C) :
    (ring_buffer_write C rb input).1.data
      = write_overlay C rb input (ring_buffer_write C rb input).2 := by
  have hcnt : (ring_buffer_write C rb input).2 ≤ C - rb.available := by
    rw [write_count C rb input ha]
    omega
  apply list_getD_ext
  · rw [write_data_length, hd]
    simp [write_overlay]
  · intro i hi
    rw [write_data_length, hd] at hi
    rw [write_overlay, getD_map_range C _ i hi]
    by_cases hin : (i + C - rb.writePos) % C < (ring_buffer_write C rb input).2
    · rw [if_pos hin]
      have := write_data_new C rb input hd hw ((i + C - rb.writePos) % C) hin
      rwa [mod_cycle1 C rb.writePos i hw hi] at this
    · rw [if_neg hin]
      apply write_data_old C rb input hd hw
      intro i' hi'
      intro heq
      apply hin
      rw [heq, mod_cycle2 C rb.writePos i' hw (by omega)]
      exact hi'

/-- Claim C1: `ring_buffer_write` writes exactly
`min (input length) (capacity - available)` samples and returns that count;
the samples written are the first ones of the input, placed in order at the
positions `writePos, writePos + 1, ...` (mod `C`), and no other stored sample
is overwritten (drop-newest, the tail of the input is silently dropped).  The
overflow instance of the claim (writing `C + m` samples into an empty buffer
keeps the first `C` and reports `C` written) is the case
`available = 0, input length = C + m` of the count equation together with the
overlay equation. -/
theorem claim_C1 (C : Nat) (rb : ring_buffer_t) (input : List Int)
    (hd : rb.data.length = C) (hw : rb.writePos < C) (ha : rb.available ≤ C) :
    (ring_buffer_write C rb input).2 = min input.length (C - rb.available) ∧
    (ring_buffer_write C rb input).1.available
        = rb.available + (ring_buffer_write C rb input).2 ∧
    (ring_buffer_write C rb input).1.data
        = write_overlay C rb input (ring_buffer_write C rb input).2 :=
  ⟨write_count C rb input ha, write_available C rb input,
    write_data_overlay C rb input hd hw ha⟩

/-- Witness for claim C1 at the overflow instance: capacity 3, empty buffer,
writing 5 samples keeps the first 3 and reports 3 written. -/
theorem claim_C1_witness :
    (([0, 0, 0] : List Int).length = 3 ∧ (0 : Nat) < 3 ∧ (0 : Nat) ≤ 3) ∧
    ((ring_buffer_write 3 ⟨[0, 0, 0], 0, 0, 0⟩ [1, 2, 3, 4, 5]).2
        = min ([1, 2, 3, 4, 5] : List Int).length (3 - 0) ∧
      (ring_buffer_write 3 ⟨[0, 0, 0], 0, 0, 0⟩ [1, 2, 3, 4, 5]).1.available
        = 0 + (ring_buffer_write 3 ⟨[0, 0, 0], 0, 0, 0⟩ [1, 2, 3, 4, 5]).2 ∧
      (ring_buffer_write 3 ⟨[0, 0, 0], 0, 0, 0⟩ [1, 2, 3, 4, 5]).1.data
        = write_overlay 3 ⟨[0, 0, 0], 0, 0, 0⟩ [1, 2, 3, 4, 5]
            (ring_buffer_write 3 ⟨[0, 0, 0], 0, 0, 0⟩ [1, 2, 3, 4, 5]).2) :=
  ⟨⟨by decide, by decide, by decide⟩,
    claim_C1 3 ⟨[0, 0, 0], 0, 0, 0⟩ [1, 2, 3, 4, 5] (by decide) (by decide)
      (by decide)⟩

/-- Claim C3: writing `k ≤ C` samples into a freshly initialised ring buffer
of capacity `C` and then reading `k` samples yields back exactly the original
sequence, in order. -/
theorem claim_C3 (C : Nat) (d input : List Int) (hC : 0 < C)
    (hd : d.length = C) (hk : input.length ≤ C) :
    (ring_buffer_read C
        (ring_buffer_write C (ring_buffer_init d) input).1 input.length).2
      = input := by
  have h0d : (ring_buffer_init d).data = d := rfl
  have h0w : (ring_buffer_init d).writePos = 0 := rfl
  have h0r : (ring_buffer_init d).readPos = 0 := rfl
  have h0a : (ring_buffer_init d).available = 0 := rfl
  have hcnt : (ring_buffer_write C (ring_buffer_init d) input).2 = input.length := by
    rw [write_count C _ input (by rw [h0a]; omega)]
    rw [h0a]
    omega
  have hav : (ring_buffer_write C (ring_buffer_init d) input).1.available
      = input.length := by
    rw [write_available, hcnt, h0a]
    omega
  have hrp : (ring_buffer_write C (ring_buffer_init d) input).1.readPos = 0 := by
    rw [write_readPos, h0r]
  have hdl : (ring_buffer_write C (ring_buffer_init d) input).1.data.length = C := by
    rw [write_data_length, h0d, hd]
  have hlen : (ring_buffer_read C
      (ring_buffer_write C (ring_buffer_init d) input).1 input.length).2.length
      = input.length := by
    rw [read_count, hav]
    omega
  apply list_getD_ext _ _ hlen
  intro i hi
  rw [hlen] at hi
  have hout := read_out C (ring_buffer_write C (ring_buffer_init d) input).1
    input.length (by rw [hrp]; exact hC) i (by rw [hlen]; exact hi)
  rw [hout, hrp]
  have hnew := write_data_new C (ring_buffer_init d) input
    (by rw [h0d]; exact hd) (by rw [h0w]; exact hC) i (by rw [hcnt]; exact hi)
  rw [h0w] at hnew
  exact hnew

/-- Witness for claim C3: capacity 3, writing then reading `[5, 6, 7]`. -/
theorem claim_C3_witness :
    ((0 : Nat) < 3 ∧ ([0, 0, 0] : List Int).length = 3 ∧
      ([5, 6, 7] : List Int).length ≤ 3) ∧
    (ring_buffer_read 3
        (ring_buffer_write 3 (ring_buffer_init [0, 0, 0]) [5, 6, 7]).1
        ([5, 6, 7] : List Int).length).2 = [5, 6, 7] :=
  ⟨⟨by decide, by decide, by decide⟩,
    claim_C3 3 [0, 0, 0] [5, 6, 7] (by decide) (by decide) (by decide)⟩

/-! ### Operation traces over a ring buffer -/

/-- One consumer/producer operation on the ring buffer. -/
inductive RBOp where
  | write (input : List Int)
  | read (n : Nat)
deriving Repr, DecidableEq

/-- Final state and running totals of a trace: `attempted` counts every
sample passed to `ring_buffer_write`, `written` sums the counts it returned
(so `attempted - written` is the number of samples dropped by overflow), and
`readTotal` sums the counts returned by `ring_buffer_read`. -/
structure RunTotals where
  final : ring_buffer_t
  attempted : Nat
  written : Nat
  readTotal : Nat
deriving Repr, DecidableEq

/-- Run a list of operations from a given buffer state. -/
def rb_run (C : Nat) (rb : ring_buffer_t) : List RBOp → RunTotals
  | [] => ⟨rb, 0, 0, 0⟩
  | RBOp.write input :: ops =>
    let w := ring_buffer_write C rb input
    let rest := rb_run C w.1 ops
    ⟨rest.final, input.length + rest.attempted, w.2 + rest.written,
      rest.readTotal⟩
  | RBOp.read n :: ops =>
    let r := ring_buffer_read C rb n
    let rest := rb_run C r.1 ops
    ⟨rest.final, rest.attempted, rest.written, r.2.length + rest.readTotal⟩

/-- The structural invariant of a capacity-`C` ring buffer state. -/
def rb_inv (C : Nat) (rb : ring_buffer_t) : Prop :=
  rb.data.length = C ∧ rb.writePos < C ∧ rb.readPos < C ∧ rb.available ≤ C

theorem rb_run_inv (C : Nat) (ops : List RBOp) (rb : ring_buffer_t)
    (hC : 0 < C) (h : rb_inv C rb) :
    rb_inv C (rb_run C rb ops).final ∧
    (rb_run C rb ops).written + rb.available
      = (rb_run C rb ops).readTotal + (rb_run C rb ops).final.available ∧
    (rb_run C rb ops).written ≤ (rb_run C rb ops).attempted := by
  induction ops generalizing rb with
  | nil => simpa [rb_run] using h
  | cons op ops ih =>
    obtain ⟨hdl, hwp, hrp, hav⟩ := h
    cases op with
    | write input =>
      have hcnt := write_count C rb input hav
      have havail := write_available C rb input
      have hinv' : rb_inv C (ring_buffer_write C rb input).1 :=
        ⟨by rw [write_data_length, hdl],
          write_writePos_lt C rb input hC hwp,
          by rw [write_readPos]; exact hrp,
          by rw [havail]; omega⟩
      have hrec := ih (ring_buffer_write C rb input).1 hinv'
      refine ⟨hrec.1, ?_, ?_⟩
      · have := hrec.2.1
        simp only [rb_run]
        rw [havail] at this
        omega
      · have h1 := hrec.2.2
        simp only [rb_run]
        have h2 : (ring_buffer_write C rb input).2 ≤ input.length := by
          rw [hcnt]; omega
        omega
    | read n =>
      have hcnt := read_count C rb n
      have havail := read_available C rb n
      have hinv' : rb_inv C (ring_buffer_read C rb n).1 :=
        ⟨by rw [read_data]; exact hdl,
          by rw [read_writePos]; exact hwp,
          read_readPos_lt C rb n hC hrp,
          by rw [havail]; omega⟩
      have hrec := ih (ring_buffer_read C rb n).1 hinv'
      refine ⟨hrec.1, ?_, ?_⟩
      · have := hrec.2.1
        simp only [rb_run]
        rw [havail] at this
        have hle : (ring_buffer_read C rb n).2.length ≤ rb.available := by
          rw [hcnt]; omega
        omega
      · have := hrec.2.2
        simp only [rb_run]
        omega

/-- Counterexample to claim C2 as stated: write one sample into an empty
buffer of capacity 10 and stop.  One sample was successfully written, none
was dropped by overflow, yet zero samples have been read, so the total read
does not equal the total written minus the dropped count. -/
theorem claim_C2_cex :
    (rb_run 10 (ring_buffer_init (List.replicate 10 0))
        [RBOp.write [5]]).readTotal = 0 ∧
    (rb_run 10 (ring_buffer_init (List.replicate 10 0))
        [RBOp.write [5]]).written = 1 ∧
    (rb_run 10 (ring_buffer_init (List.replicate 10 0))
        [RBOp.write [5]]).attempted = 1 ∧
    ¬ ((rb_run 10 (ring_buffer_init (List.replicate 10 0))
          [RBOp.write [5]]).readTotal
        = (rb_run 10 (ring_buffer_init (List.replicate 10 0))
              [RBOp.write [5]]).written
          - ((rb_run 10 (ring_buffer_init (List.replicate 10 0))
                [RBOp.write [5]]).attempted
            - (rb_run 10 (ring_buffer_init (List.replicate 10 0))
                  [RBOp.write [5]]).written)) := by
  decide

/-- Claim C2, amended: after every sequence of writes and reads from a
freshly initialised buffer of capacity `C > 0` the invariant
`available ≤ C` holds and `writePos`, `readPos` stay in `[0, C)`; the total
of samples successfully read equals the total successfully written minus the
samples still unread in the buffer (not minus the dropped ones: the count
returned by `write` already excludes the samples dropped by overflow, which
number `attempted - written`).  Since the operation list is universally
quantified, the invariant holds after each operation of any longer trace. -/
theorem claim_C2 (C : Nat) (ops : List RBOp) (d : List Int)
    (hC : 0 < C) (hd : d.length = C) :
    (rb_run C (ring_buffer_init d) ops).final.available ≤ C ∧
    (rb_run C (ring_buffer_init d) ops).final.writePos < C ∧
    (rb_run C (ring_buffer_init d) ops).final.readPos < C ∧
    (rb_run C (ring_buffer_init d) ops).written
      = (rb_run C (ring_buffer_init d) ops).readTotal
        + (rb_run C (ring_buffer_init d) ops).final.available ∧
    (rb_run C (ring_buffer_init d) ops).written
      ≤ (rb_run C (ring_buffer_init d) ops).attempted := by
  have h0 : rb_inv C (ring_buffer_init d) := ⟨hd, hC, hC, Nat.zero_le C⟩
  have h := rb_run_inv C ops (ring_buffer_init d) hC h0
  obtain ⟨⟨h1, h2, h3, h4⟩, h5, h6⟩ := h
  have h0a : (ring_buffer_init d).available = 0 := rfl
  rw [h0a] at h5
  exact ⟨h4, h2, h3, by omega, h6⟩

/-- Witness for claim C2 at capacity 2 with an overflowing write followed by
a read. -/
theorem claim_C2_witness :
    ((0 : Nat) < 2 ∧ ([0, 0] : List Int).length = 2) ∧
    ((rb_run 2 (ring_buffer_init [0, 0])
        [RBOp.write [1, 2, 3], RBOp.read 1]).final.available ≤ 2 ∧
      (rb_run 2 (ring_buffer_init [0, 0])
        [RBOp.write [1, 2, 3], RBOp.read 1]).final.writePos < 2 ∧
      (rb_run 2 (ring_buffer_init [0, 0])
        [RBOp.write [1, 2, 3], RBOp.read 1]).final.readPos < 2 ∧
      (rb_run 2 (ring_buffer_init [0, 0])
        [RBOp.write [1, 2, 3], RBOp.read 1]).written
        = (rb_run 2 (ring_buffer_init [0, 0])
            [RBOp.write [1, 2, 3], RBOp.read 1]).readTotal
          + (rb_run 2 (ring_buffer_init [0, 0])
              [RBOp.write [1, 2, 3], RBOp.read 1]).final.available ∧
      (rb_run 2 (ring_buffer_init [0, 0])
        [RBOp.write [1, 2, 3], RBOp.read 1]).written
        ≤ (rb_run 2 (ring_buffer_init [0, 0])
            [RBOp.write [1, 2, 3], RBOp.read 1]).attempted) :=
  ⟨⟨by decide, by decide⟩,
    claim_C2 2 [RBOp.write [1, 2, 3], RBOp.read 1] [0, 0] (by decide)
      (by decide)⟩

/-- Claim C10: `ring_buffer_write` never modifies `readPos`, and
`ring_buffer_read` never modifies `writePos` or the stored sample data —
each side of the single-producer/single-consumer pair advances only its own
cursor. -/
theorem claim_C10 (C : Nat) (rb : ring_buffer_t) (input : List Int) (n : Nat) :
    (ring_buffer_write C rb input).1.readPos = rb.readPos ∧
    (ring_buffer_read C rb n).1.writePos = rb.writePos ∧
    (ring_buffer_read C rb n).1.data = rb.data :=
  ⟨write_readPos C rb input, read_writePos C rb n, read_data C rb n⟩

/-! ### The concrete scenario of the spec (capacity 10, channels 1) -/

/-- Step 1 of the concrete scenario: write `[1, 2, 3]` into an empty
capacity-10 buffer. -/
def c6_w1 : ring_buffer_t × Nat :=
  ring_buffer_write 10 (ring_buffer_init (List.replicate 10 0)) [1, 2, 3]

/-- Step 2: read 2 samples. -/
def c6_r1 : ring_buffer_t × List Int := ring_buffer_read 10 c6_w1.1 2

/-- Step 3: write the 9 samples `[4, ..., 12]`. -/
def c6_w2 : ring_buffer_t × Nat :=
  ring_buffer_write 10 c6_r1.1 [4, 5, 6, 7, 8, 9, 10, 11, 12]

/-- Step 4: attempt to write `[99]` into the now-full buffer. -/
def c6_w3 : ring_buffer_t × Nat := ring_buffer_write 10 c6_w2.1 [99]

/-- Step 5: read 10 samples. -/
def c6_r2 : ring_buffer_t × List Int := ring_buffer_read 10 c6_w3.1 10

/-- Claim C6: the concrete trace of the spec holds: write `[1,2,3]` gives
`available = 3`; `read 2` returns `[1,2]` leaving `available = 1`; writing
`[4..12]` reports 9 written and `available = 10`; a further write of `[99]`
reports 0 written with `available` still 10; `read 10` returns
`[3,4,5,6,7,8,9,10,11,12]`. -/
theorem claim_C6 :
    c6_w1.1.available = 3 ∧
    c6_r1.2 = [1, 2] ∧ c6_r1.1.available = 1 ∧
    c6_w2.2 = 9 ∧ c6_w2.1.available = 10 ∧
    c6_w3.2 = 0 ∧ c6_w3.1.available = 10 ∧
    c6_r2.2 = [3, 4, 5, 6, 7, 8, 9, 10, 11, 12] := by
  decide

/-! ### The device layer -/

/-- The `audio_device` struct of `audio_wrapper.h`: its own fields
(`ringBuffer`, `channels`, `errorMsg`) plus the observable state of the
native RtAudio stream owned through `handle`, modelled by the two booleans
`streamOpen` (`rtaudio_is_stream_open`) and `streamRunning`
(`rtaudio_is_stream_running`).  The claims are about devices whose `dev` and
`dev->handle` pointers are valid, so the null checks of the C code are
outside the model. -/
structure audio_device where
  ringBuffer : ring_buffer_t
  channels : Nat
  errorMsg : String
  streamOpen : Bool
  streamRunning : Bool
deriving Repr, DecidableEq

/-- Observable behaviour of the external RtAudio backend during one
`audio_start_recording` call: whether `rtaudio_open_stream` fails (and with
which diagnostic), whether `rtaudio_start_stream` fails, and the buffer size
in frames after the backend adjusted it. -/
structure backend_behavior where
  openError : Option String
  startError : Option String
  adjustedFrames : Nat
deriving Repr, DecidableEq

/-- `snprintf(dev->errorMsg, 256, ...)`: the diagnostic is truncated to 255
characters. -/
def store_error (msg : String) : String := String.mk (msg.data.take 255)

/-- `audio_create` for a device whose backend storage initially holds `d`:
both cursors and `available` zeroed, `channels = 0`, empty error message, no
stream open or running. -/
def audio_create (d : List Int) : audio_device :=
  { ringBuffer := ring_buffer_init d
    channels := 0
    errorMsg := ""
    streamOpen := false
    streamRunning := false }

/-- `audio_start_recording`: validates `channels` and `sampleRate`, then sets
`dev->channels`, opens the stream (on failure: store the backend diagnostic
and return `AUDIO_ERROR`), starts it (on failure: store the diagnostic,
close the stream, return `AUDIO_ERROR`), and on success returns the
backend-adjusted frame count. -/
def audio_start_recording (dev : audio_device)
    (channels sampleRate bufferFrames : Nat) (be : backend_behavior) :
    Int × audio_device :=
  if channels = 0 ∨ sampleRate = 0 then
    (AUDIO_INVALID_PARAM, dev)
  else
    let dev1 := { dev with channels := channels }
    match be.openError with
    | some msg => (AUDIO_ERROR, { dev1 with errorMsg := store_error msg })
    | none =>
      let dev2 := { dev1 with streamOpen := true }
      match be.startError with
      | some msg =>
        (AUDIO_ERROR,
          { dev2 with errorMsg := store_error msg, streamOpen := false })
      | none =>
        ((be.adjustedFrames : Int), { dev2 with streamRunning := true })

/-- `audio_stop`: stop the stream if it is running, then close it if it is
open; otherwise do nothing. -/
def audio_stop (dev : audio_device) : audio_device :=
  let d1 := if dev.streamRunning then { dev with streamRunning := false } else dev
  if d1.streamOpen then { d1 with streamOpen := false } else d1

/-- `audio_read_samples`: rejects a null output buffer (modelled by
`bufferPresent = false`) and `maxFrames = 0`; otherwise drains up to
`maxFrames * channels` samples (the C product is a 32-bit `unsigned int`,
hence the explicit `% UINT_MOD`) and returns the count of whole frames,
`samplesRead / channels`, along with the updated device and the samples
copied out. -/
def audio_read_samples (C : Nat) (dev : audio_device) (bufferPresent : Bool)
    (maxFrames : Nat) : Int × audio_device × List Int :=
  if bufferPresent = false ∨ maxFrames = 0 then
    (AUDIO_INVALID_PARAM, dev, [])
  else
    let totalSamples := (maxFrames * dev.channels) % UINT_MOD
    let r := ring_buffer_read C dev.ringBuffer totalSamples
    (((r.2.length / dev.channels : Nat) : Int),
      { dev with ringBuffer := r.1 }, r.2)

/-- `audio_error_message`: the stored message, or the `"No error"` sentinel
while `errorMsg` is still the empty string. -/
def audio_error_message (dev : audio_device) : String :=
  if dev.errorMsg = "" then "No error" else dev.errorMsg

/-! ### Device layer claims -/

/-- Claim C4: with `channels = c > 0`, a present output buffer and
`maxFrames = f > 0`, `audio_read_samples` drains
`min (f * c mod 2^32) available ≤ f * c` samples from the ring buffer,
returns exactly `drained / c` (hence at most `f` frames, and
`returned * c ≤ drained`); with an absent buffer or `maxFrames = 0` it
returns `AUDIO_INVALID_PARAM` and leaves the device (ring buffer included)
unchanged. -/
theorem claim_C4 (C : Nat) (dev : audio_device) (f : Nat)
    (hc : 0 < dev.channels) (hf : 0 < f) :
    (audio_read_samples C dev true f).1
      = (((ring_buffer_read C dev.ringBuffer
            ((f * dev.channels) % UINT_MOD)).2.length / dev.channels : Nat) : Int) ∧
    (ring_buffer_read C dev.ringBuffer
        ((f * dev.channels) % UINT_MOD)).2.length ≤ f * dev.channels ∧
    (ring_buffer_read C dev.ringBuffer
        ((f * dev.channels) % UINT_MOD)).2.length / dev.channels ≤ f ∧
    ((ring_buffer_read C dev.ringBuffer
        ((f * dev.channels) % UINT_MOD)).2.length / dev.channels) * dev.channels
      ≤ (ring_buffer_read C dev.ringBuffer
          ((f * dev.channels) % UINT_MOD)).2.length ∧
    (audio_read_samples C dev true f).2.1.ringBuffer.available
      = dev.ringBuffer.available
        - (ring_buffer_read C dev.ringBuffer
            ((f * dev.channels) % UINT_MOD)).2.length ∧
    audio_read_samples C dev false f = (AUDIO_INVALID_PARAM, dev, []) ∧
    audio_read_samples C dev true 0 = (AUDIO_INVALID_PARAM, dev, []) := by
  have hfne : ¬ (true = false ∨ f = 0) := by
    simp
    omega
  have hdrained : (ring_buffer_read C dev.ringBuffer
      ((f * dev.channels) % UINT_MOD)).2.length ≤ f * dev.channels := by
    rw [read_count]
    calc min ((f * dev.channels) % UINT_MOD) dev.ringBuffer.available
        ≤ (f * dev.channels) % UINT_MOD := Nat.min_le_left _ _
      _ ≤ f * dev.channels := Nat.mod_le _ _
  refine ⟨?_, hdrained, ?_, Nat.div_mul_le_self _ _, ?_, ?_, ?_⟩
  · rw [audio_read_samples, if_neg hfne]
  · have := Nat.div_le_div_right (c := dev.channels) hdrained
    rwa [Nat.mul_div_cancel f hc] at this
  · rw [audio_read_samples, if_neg hfne]
    simp only []
    rw [read_available]
  · rw [audio_read_samples]
    simp
  · rw [audio_read_samples]
    simp

/-- Witness for claim C4: capacity 4, two channels, three samples available,
reading up to three frames. -/
theorem claim_C4_witness :
    ((0 : Nat) < 2 ∧ (0 : Nat) < 3) ∧
    ((audio_read_samples 4 ⟨⟨[7, 8, 9, 0], 3, 0, 3⟩, 2, "", true, true⟩ true 3).1
      = (((ring_buffer_read 4 (⟨[7, 8, 9, 0], 3, 0, 3⟩ : ring_buffer_t)
            ((3 * 2) % UINT_MOD)).2.length / 2 : Nat) : Int) ∧
    (ring_buffer_read 4 (⟨[7, 8, 9, 0], 3, 0, 3⟩ : ring_buffer_t)
        ((3 * 2) % UINT_MOD)).2.length ≤ 3 * 2 ∧
    (ring_buffer_read 4 (⟨[7, 8, 9, 0], 3, 0, 3⟩ : ring_buffer_t)
        ((3 * 2) % UINT_MOD)).2.length / 2 ≤ 3 ∧
    ((ring_buffer_read 4 (⟨[7, 8, 9, 0], 3, 0, 3⟩ : ring_buffer_t)
        ((3 * 2) % UINT_MOD)).2.length / 2) * 2
      ≤ (ring_buffer_read 4 (⟨[7, 8, 9, 0], 3, 0, 3⟩ : ring_buffer_t)
          ((3 * 2) % UINT_MOD)).2.length ∧
    (audio_read_samples 4 ⟨⟨[7, 8, 9, 0], 3, 0, 3⟩, 2, "", true, true⟩
        true 3).2.1.ringBuffer.available
      = 3 - (ring_buffer_read 4 (⟨[7, 8, 9, 0], 3, 0, 3⟩ : ring_buffer_t)
          ((3 * 2) % UINT_MOD)).2.length ∧
    audio_read_samples 4 ⟨⟨[7, 8, 9, 0], 3, 0, 3⟩, 2, "", true, true⟩ false 3
      = (AUDIO_INVALID_PARAM, ⟨⟨[7, 8, 9, 0], 3, 0, 3⟩, 2, "", true, true⟩, []) ∧
    audio_read_samples 4 ⟨⟨[7, 8, 9, 0], 3, 0, 3⟩, 2, "", true, true⟩ true 0
      = (AUDIO_INVALID_PARAM, ⟨⟨[7, 8, 9, 0], 3, 0, 3⟩, 2, "", true, true⟩, [])) :=
  ⟨⟨by decide, by decide⟩,
    claim_C4 4 ⟨⟨[7, 8, 9, 0], 3, 0, 3⟩, 2, "", true, true⟩ 3 (by decide)
      (by decide)⟩

/-- Counterexample to claim C5 as stated: `dev->channels = channels` is
assigned before the stream is opened, so a backend open failure does not
leave `channels` in its prior state (here prior 1, requested 2); and an
invalid-parameter failure (`channels = 0`) does not surface any error via
`lastError` — the message stays empty and `audio_error_message` still
reports the no-error sentinel. -/
theorem claim_C5_cex :
    (audio_start_recording ⟨⟨[], 0, 0, 0⟩, 1, "", false, false⟩ 2 48000 64
        ⟨some "open failed", none, 64⟩).2.channels = 2 ∧
    ¬ (audio_start_recording ⟨⟨[], 0, 0, 0⟩, 1, "", false, false⟩ 2 48000 64
        ⟨some "open failed", none, 64⟩).2.channels = 1 ∧
    (audio_start_recording ⟨⟨[], 0, 0, 0⟩, 1, "", false, false⟩ 0 48000 64
        ⟨none, none, 64⟩).1 = AUDIO_INVALID_PARAM ∧
    (audio_start_recording ⟨⟨[], 0, 0, 0⟩, 1, "", false, false⟩ 0 48000 64
        ⟨none, none, 64⟩).2.errorMsg = "" ∧
    audio_error_message (audio_start_recording
        ⟨⟨[], 0, 0, 0⟩, 1, "", false, false⟩ 0 48000 64
        ⟨none, none, 64⟩).2 = "No error" := by
  decide

/-- Claim C5, amended: invalid parameters (`channels = 0` or
`sampleRate = 0`) return `AUDIO_INVALID_PARAM` with no side effects at all —
in particular `lastError` is not set.  A backend open or start failure
returns `AUDIO_ERROR`, leaves the ring buffer and the running flag
unchanged and stores the backend diagnostic in `lastError`, but `channels`
has already been overwritten with the requested value; a start failure
additionally leaves the stream closed. -/
theorem claim_C5 (dev : audio_device) (ch rate frames af : Nat)
    (m1 m2 : String) (be : backend_behavior)
    (hch : ch ≠ 0) (hrate : rate ≠ 0) :
    audio_start_recording dev 0 rate frames be = (AUDIO_INVALID_PARAM, dev) ∧
    audio_start_recording dev ch 0 frames be = (AUDIO_INVALID_PARAM, dev) ∧
    (audio_start_recording dev ch rate frames ⟨some m1, none, af⟩).1
      = AUDIO_ERROR ∧
    (audio_start_recording dev ch rate frames ⟨some m1, none, af⟩).2
      = { dev with channels := ch, errorMsg := store_error m1 } ∧
    (audio_start_recording dev ch rate frames ⟨none, some m2, af⟩).1
      = AUDIO_ERROR ∧
    (audio_start_recording dev ch rate frames ⟨none, some m2, af⟩).2
      = { dev with
          channels := ch
          errorMsg := store_error m2
          streamOpen := false } := by
  refine ⟨?_, ?_, ?_, ?_, ?_, ?_⟩
  · rw [audio_start_recording, if_pos (Or.inl rfl)]
  · rw [audio_start_recording, if_pos (Or.inr rfl)]
  · rw [audio_start_recording, if_neg (by simp [hch, hrate])]
  · rw [audio_start_recording, if_neg (by simp [hch, hrate])]
  · rw [audio_start_recording, if_neg (by simp [hch, hrate])]
  · rw [audio_start_recording, if_neg (by simp [hch, hrate])]

/-- Witness for claim C5 on a concrete device with prior `channels = 1`. -/
theorem claim_C5_witness :
    ((2 : Nat) ≠ 0 ∧ (48000 : Nat) ≠ 0) ∧
    (audio_start_recording ⟨⟨[], 0, 0, 0⟩, 1, "", false, false⟩ 0 48000 64
        ⟨some "a", none, 64⟩
      = (AUDIO_INVALID_PARAM, ⟨⟨[], 0, 0, 0⟩, 1, "", false, false⟩) ∧
    audio_start_recording ⟨⟨[], 0, 0, 0⟩, 1, "", false, false⟩ 2 0 64
        ⟨some "a", none, 64⟩
      = (AUDIO_INVALID_PARAM, ⟨⟨[], 0, 0, 0⟩, 1, "", false, false⟩) ∧
    (audio_start_recording ⟨⟨[], 0, 0, 0⟩, 1, "", false, false⟩ 2 48000 64
        ⟨some "a", none, 64⟩).1 = AUDIO_ERROR ∧
    (audio_start_recording ⟨⟨[], 0, 0, 0⟩, 1, "", false, false⟩ 2 48000 64
        ⟨some "a", none, 64⟩).2
      = { (⟨⟨[], 0, 0, 0⟩, 1, "", false, false⟩ : audio_device) with
          channels := 2, errorMsg := store_error "a" } ∧
    (audio_start_recording ⟨⟨[], 0, 0, 0⟩, 1, "", false, false⟩ 2 48000 64
        ⟨none, some "b", 64⟩).1 = AUDIO_ERROR ∧
    (audio_start_recording ⟨⟨[], 0, 0, 0⟩, 1, "", false, false⟩ 2 48000 64
        ⟨none, some "b", 64⟩).2
      = { (⟨⟨[], 0, 0, 0⟩, 1, "", false, false⟩ : audio_device) with
          channels := 2, errorMsg := store_error "b", streamOpen := false }) :=
  ⟨⟨by decide, by decide⟩,
    claim_C5 ⟨⟨[], 0, 0, 0⟩, 1, "", false, false⟩ 2 48000 64 64 "a" "b"
      ⟨some "a", none, 64⟩ (by decide) (by decide)⟩

/-- Counterexample to claim C7 as stated: after a failed start (which stores
`"boom"`) a subsequent start succeeds (returning the adjusted frame count
64), yet `audio_error_message` still reports the stale `"boom"` — the error
message is never cleared on success. -/
theorem claim_C7_cex :
    (audio_start_recording
        (audio_start_recording (audio_create []) 1 48000 64
          ⟨some "boom", none, 64⟩).2 1 48000 64 ⟨none, none, 64⟩).1
      = (64 : Int) ∧
    audio_error_message (audio_start_recording
        (audio_start_recording (audio_create []) 1 48000 64
          ⟨some "boom", none, 64⟩).2 1 48000 64 ⟨none, none, 64⟩).2
      = "boom" ∧
    "boom" ≠ "No error" := by
  decide

/-- Claim C7, amended: `lastError` is set (to the backend diagnostic) on
every failed `audio_start_recording`, but a successful one leaves it
unchanged rather than clearing it: `audio_error_message` reports the
no-error sentinel only while `errorMsg` is still empty, so after a failure
followed by a success it still reports the stale failure text. -/
theorem claim_C7 (dev : audio_device) (ch rate frames af : Nat)
    (m1 m2 : String) (hch : ch ≠ 0) (hrate : rate ≠ 0) :
    (audio_start_recording dev ch rate frames ⟨none, none, af⟩).2.errorMsg
      = dev.errorMsg ∧
    (audio_start_recording dev ch rate frames ⟨some m1, none, af⟩).2.errorMsg
      = store_error m1 ∧
    (audio_start_recording dev ch rate frames ⟨none, some m2, af⟩).2.errorMsg
      = store_error m2 ∧
    audio_error_message { dev with errorMsg := "" } = "No error" := by
  refine ⟨?_, ?_, ?_, rfl⟩
  · rw [audio_start_recording, if_neg (by simp [hch, hrate])]
  · rw [audio_start_recording, if_neg (by simp [hch, hrate])]
  · rw [audio_start_recording, if_neg (by simp [hch, hrate])]

/-- Witness for claim C7. -/
theorem claim_C7_witness :
    ((1 : Nat) ≠ 0 ∧ (48000 : Nat) ≠ 0) ∧
    ((audio_start_recording (audio_create []) 1 48000 64
        ⟨none, none, 64⟩).2.errorMsg = (audio_create []).errorMsg ∧
    (audio_start_recording (audio_create []) 1 48000 64
        ⟨some "x", none, 64⟩).2.errorMsg = store_error "x" ∧
    (audio_start_recording (audio_create []) 1 48000 64
        ⟨none, some "y", 64⟩).2.errorMsg = store_error "y" ∧
    audio_error_message { audio_create [] with errorMsg := "" } = "No error") :=
  ⟨⟨by decide, by decide⟩,
    claim_C7 (audio_create []) 1 48000 64 64 "x" "y" (by decide) (by decide)⟩

/-- Claim C8: `audio_stop` is idempotent: stopping twice equals stopping
once; a stop never touches the ring buffer, the channel count or the error
message (so it produces no error); after a stop the stream is neither
running nor open; and on a device that was never started (not running, not
open) a stop is a no-op. -/
theorem claim_C8 (dev : audio_device) :
    audio_stop (audio_stop dev) = audio_stop dev ∧
    (audio_stop dev).ringBuffer = dev.ringBuffer ∧
    (audio_stop dev).channels = dev.channels ∧
    (audio_stop dev).errorMsg = dev.errorMsg ∧
    (audio_stop dev).streamRunning = false ∧
    (audio_stop dev).streamOpen = false ∧
    audio_stop { dev with streamRunning := false, streamOpen := false }
      = { dev with streamRunning := false, streamOpen := false } := by
  obtain ⟨rb, ch, msg, so, sr⟩ := dev
  cases so <;> cases sr <;> simp [audio_stop]

/-- Claim C9: if opening the native stream succeeds but starting it fails,
`audio_start_recording` closes the stream before returning `AUDIO_ERROR`, so
no execution path leaves an open-but-unstarted stream: a successful start
leaves the stream open and running, and an open failure leaves the open flag
as it was. -/
theorem claim_C9 (dev : audio_device) (ch rate frames af : Nat) (m : String)
    (hch : ch ≠ 0) (hrate : rate ≠ 0) :
    (audio_start_recording dev ch rate frames ⟨none, some m, af⟩).1
      = AUDIO_ERROR ∧
    (audio_start_recording dev ch rate frames
        ⟨none, some m, af⟩).2.streamOpen = false ∧
    (audio_start_recording dev ch rate frames ⟨none, some m, af⟩).2.errorMsg
      = store_error m ∧
    (audio_start_recording dev ch rate frames
        ⟨none, none, af⟩).2.streamOpen = true ∧
    (audio_start_recording dev ch rate frames
        ⟨none, none, af⟩).2.streamRunning = true ∧
    (audio_start_recording dev ch rate frames
        ⟨some m, none, af⟩).2.streamOpen = dev.streamOpen := by
  refine ⟨?_, ?_, ?_, ?_, ?_, ?_⟩ <;>
    rw [audio_start_recording, if_neg (by simp [hch, hrate])]

/-- Witness for claim C9. -/
theorem claim_C9_witness :
    ((1 : Nat) ≠ 0 ∧ (48000 : Nat) ≠ 0) ∧
    ((audio_start_recording (audio_create []) 1 48000 64
        ⟨none, some "fail", 64⟩).1 = AUDIO_ERROR ∧
    (audio_start_recording (audio_create []) 1 48000 64
        ⟨none, some "fail", 64⟩).2.streamOpen = false ∧
    (audio_start_recording (audio_create []) 1 48000 64
        ⟨none, some "fail", 64⟩).2.errorMsg = store_error "fail" ∧
    (audio_start_recording (audio_create []) 1 48000 64
        ⟨none, none, 64⟩).2.streamOpen = true ∧
    (audio_start_recording (audio_create []) 1 48000 64
        ⟨none, none, 64⟩).2.streamRunning = true ∧
    (audio_start_recording (audio_create []) 1 48000 64
        ⟨some "fail", none, 64⟩).2.streamOpen = (audio_create []).streamOpen) :=
  ⟨⟨by decide, by decide⟩,
    claim_C9 (audio_create []) 1 48000 64 64 "fail" (by decide) (by decide)⟩

end Roundtable
